import Mathlib

/-!
Verification of the bullet-rewriting logic of the `obsidian-advanced-bullets`
plugin (`src/main.ts`).  The core is `processLine`, which matches a line
against the JavaScript regex `^(\s*)(-|\*|\+)(\s+)(.*)`, computes a nesting
level from the captured indentation, and substitutes a configured glyph for
the bullet marker.  The regex is embedded faithfully, including the
ECMAScript semantics of the `\s` character class and of `.` (which matches
every character except line terminators).
-/

namespace AdvancedBullets

/-- ECMAScript `\s` character class: tab, line feed, vertical tab, form feed,
carriage return, space, NBSP, and the other Unicode space separators, plus
the line separators U+2028/U+2029 and the BOM U+FEFF. -/
def isJsWhitespace (c : Char) : Bool :=
  let n := c.toNat
  n == 0x09 || n == 0x0A || n == 0x0B || n == 0x0C || n == 0x0D ||
  n == 0x20 || n == 0xA0 || n == 0x1680 ||
  (0x2000 ≤ n && n ≤ 0x200A) ||
  n == 0x2028 || n == 0x2029 || n == 0x202F || n == 0x205F ||
  n == 0x3000 || n == 0xFEFF

/-- ECMAScript line terminators, the characters NOT matched by `.`. -/
def isLineTerminator (c : Char) : Bool :=
  let n := c.toNat
  n == 0x0A || n == 0x0D || n == 0x2028 || n == 0x2029

/-- The alternation `(-|\*|\+)` of the regex in `processLine`. -/
def isBulletChar (c : Char) : Bool :=
  c == '-' || c == '*' || c == '+'

/-- Faithful model of `lineText.match(/^(\s*)(-|\*|\+)(\s+)(.*)/)`
(src/main.ts line 63).  Greedy matching: `(\s*)` takes the maximal leading
whitespace run (no backtracking can help, since a bullet character is never
whitespace), the next character must be `-`, `*` or `+`, `(\s+)` takes the
maximal whitespace run after it and must be non-empty, and `(.*)` takes the
maximal run of non-line-terminator characters.  Returns the four captures
`(indent, bullet, space, content)` or `none`. -/
def jsListMatch (l : List Char) : Option (List Char × Char × List Char × List Char) :=
  match l.dropWhile isJsWhitespace with
  | [] => none
  | b :: rest =>
    if isBulletChar b then
      let sep := rest.takeWhile isJsWhitespace
      if sep.isEmpty then none
      else
        some (l.takeWhile isJsWhitespace, b, sep,
          (rest.dropWhile isJsWhitespace).takeWhile (fun c => !isLineTerminator c))
    else none

/-- The `CustomBulletsSettings` record of src/main.ts lines 3-10. -/
structure CustomBulletsSettings where
  level1 : String
  level2 : String
  level3 : String
  level4 : String
  level5 : String
  enabled : Bool
deriving DecidableEq

/-- `DEFAULT_SETTINGS` of src/main.ts lines 12-19. -/
def DEFAULT_SETTINGS : CustomBulletsSettings :=
  ⟨"•", "◦", "▪", "▫", "⁃", true⟩

/-- Level computation of src/main.ts lines 69-79: `level = 1`; if the
captured indentation is non-empty (JS truthiness of a string), count tabs,
count the remaining characters after deleting tabs, and set
`level = 1 + tabCount + floor(spaceCount / 2)`. -/
def computeLevel (indentChars : List Char) : Nat :=
  if indentChars.isEmpty then 1
  else
    1 + (indentChars.filter (fun c => c == '\t')).length
      + (indentChars.filter (fun c => c != '\t')).length / 2

/-- The `switch (level)` of src/main.ts lines 83-89 selecting `customBullet`. -/
def customBullet (settings : CustomBulletsSettings) (level : Nat) : String :=
  match level with
  | 1 => settings.level1
  | 2 => settings.level2
  | 3 => settings.level3
  | 4 => settings.level4
  | _ => settings.level5

/-- `processLine` of src/main.ts lines 59-94: disabled lines and lines not
matching the regex pass through unchanged; a matched line is rebuilt as
`indent + customBullet + space + content`. -/
def processLine (lineText : String) (settings : CustomBulletsSettings) : String :=
  if !settings.enabled then lineText
  else
    match jsListMatch lineText.data with
    | none => lineText
    | some (indentChars, _b, space, content) =>
      String.mk indentChars ++ customBullet settings (computeLevel indentChars)
        ++ String.mk space ++ String.mk content

/-- Nesting level assigned to a line, when the line matches. -/
def lineLevel (s : String) : Option Nat :=
  (jsListMatch s.data).map (fun m => computeLevel m.1)

example : lineLevel "- a" = some 1 := by decide
example : lineLevel "  - a" = some 2 := by decide
example : lineLevel "\t- a" = some 2 := by decide
example : processLine "- a" DEFAULT_SETTINGS = "• a" := by decide
example : processLine "---" DEFAULT_SETTINGS = "---" := by decide
example : jsListMatch (" - a").data = some ([' '], '-', [' '], ['a']) := by decide

/-- Boolean version of the regex recognition test: after dropping the maximal
leading run of `\s` characters, the line continues with a bullet character
followed by at least one `\s` character. -/
def matchesJsPattern (l : List Char) : Bool :=
  match l.dropWhile isJsWhitespace with
  | b :: c :: _ => isBulletChar b && isJsWhitespace c
  | _ => false

/-- Written from the claim wording, for comparison with `jsListMatch`: an
optional leading run of SPACE or TAB characters only (no other characters
accepted in the indentation run), then exactly one of `-`, `*`, `+`, then at
least one whitespace character. -/
def spaceTabOnlyPattern (l : List Char) : Bool :=
  match l.dropWhile (fun c => c == ' ' || c == '\x09') with
  | b :: c :: _ => isBulletChar b && isJsWhitespace c
  | _ => false

/-- A glyph string that cannot re-trigger the list-marker regex: it is
non-empty and starts with a character that is neither whitespace nor one of
`-`, `*`, `+`. -/
def goodGlyph (g : String) : Bool :=
  match g.data with
  | [] => false
  | c :: _ => !isJsWhitespace c && !isBulletChar c

/-- All five configured glyphs are `goodGlyph`s. -/
def goodSettings (st : CustomBulletsSettings) : Bool :=
  goodGlyph st.level1 && goodGlyph st.level2 && goodGlyph st.level3 &&
  goodGlyph st.level4 && goodGlyph st.level5

/-- A settings record whose level-1 glyph `"* *"` itself re-triggers the
list-marker regex. -/
def starSettings : CustomBulletsSettings :=
  ⟨"* *", "◦", "▪", "▫", "⁃", true⟩

/-- Settings-tab onChange handler for the Level 1 field (src/main.ts
line 153): stores the default exactly when the submitted value is the empty
string (the only falsy string in JavaScript), the value itself otherwise. -/
def level1OnChange (st : CustomBulletsSettings) (value : String) : CustomBulletsSettings :=
  ⟨if value = "" then "•" else value, st.level2, st.level3, st.level4, st.level5, st.enabled⟩

/-- Settings-tab onChange handler for the Level 2 field (src/main.ts line 164). -/
def level2OnChange (st : CustomBulletsSettings) (value : String) : CustomBulletsSettings :=
  ⟨st.level1, if value = "" then "◦" else value, st.level3, st.level4, st.level5, st.enabled⟩

/-- Settings-tab onChange handler for the Level 3 field (src/main.ts line 175). -/
def level3OnChange (st : CustomBulletsSettings) (value : String) : CustomBulletsSettings :=
  ⟨st.level1, st.level2, if value = "" then "▪" else value, st.level4, st.level5, st.enabled⟩

/-- Settings-tab onChange handler for the Level 4 field (src/main.ts line 186). -/
def level4OnChange (st : CustomBulletsSettings) (value : String) : CustomBulletsSettings :=
  ⟨st.level1, st.level2, st.level3, if value = "" then "▫" else value, st.level5, st.enabled⟩

/-- Settings-tab onChange handler for the Level 5 field (src/main.ts line 197). -/
def level5OnChange (st : CustomBulletsSettings) (value : String) : CustomBulletsSettings :=
  ⟨st.level1, st.level2, st.level3, st.level4, if value = "" then "⁃" else value, st.enabled⟩

/-- The level formula holds for every captured indentation, including the
empty one (where the source skips the computation and keeps the initial
value 1). -/
lemma computeLevel_eq (l : List Char) :
    computeLevel l =
      1 + (l.filter (fun c => c == '\x09')).length
        + (l.filter (fun c => c != '\x09')).length / 2 := by
  cases l with
  | nil => rfl
  | cons c t => rfl

lemma computeLevel_pos (l : List Char) : 1 ≤ computeLevel l := by
  unfold computeLevel
  split <;> omega

lemma customBullet_of_ge5 (st : CustomBulletsSettings) {n : Nat} (h : 5 ≤ n) :
    customBullet st n = st.level5 := by
  obtain ⟨m, rfl⟩ : ∃ m, n = m + 5 := ⟨n - 5, by omega⟩
  rfl

lemma customBullet_mem (st : CustomBulletsSettings) (n : Nat) :
    customBullet st n = st.level1 ∨ customBullet st n = st.level2 ∨
    customBullet st n = st.level3 ∨ customBullet st n = st.level4 ∨
    customBullet st n = st.level5 := by
  match n with
  | 0 => exact Or.inr (Or.inr (Or.inr (Or.inr rfl)))
  | 1 => exact Or.inl rfl
  | 2 => exact Or.inr (Or.inl rfl)
  | 3 => exact Or.inr (Or.inr (Or.inl rfl))
  | 4 => exact Or.inr (Or.inr (Or.inr (Or.inl rfl)))
  | (m + 5) => exact Or.inr (Or.inr (Or.inr (Or.inr rfl)))

lemma processLine_disabled {s : String} {st : CustomBulletsSettings}
    (h : st.enabled = false) : processLine s st = s := by
  simp [processLine, h]

lemma processLine_not_matched {s : String} {st : CustomBulletsSettings}
    (h : jsListMatch s.data = none) : processLine s st = s := by
  cases he : st.enabled <;> simp [processLine, he, h]

lemma processLine_matched {s : String} {st : CustomBulletsSettings}
    {ind : List Char} {b : Char} {sep cont : List Char}
    (he : st.enabled = true) (h : jsListMatch s.data = some (ind, b, sep, cont)) :
    processLine s st =
      String.mk ind ++ customBullet st (computeLevel ind)
        ++ String.mk sep ++ String.mk cont := by
  simp [processLine, he, h]

/-- Elimination form of a successful match: the captures are the greedy ones
prescribed by the regex. -/
lemma jsListMatch_eq_some {l : List Char} {ind : List Char} {b : Char}
    {sep cont : List Char}
    (h : jsListMatch l = some (ind, b, sep, cont)) :
    ind = l.takeWhile isJsWhitespace ∧ isBulletChar b = true ∧
    ∃ rest, l.dropWhile isJsWhitespace = b :: rest ∧
      sep = rest.takeWhile isJsWhitespace ∧ sep.isEmpty = false ∧
      cont = (rest.dropWhile isJsWhitespace).takeWhile (fun c => !isLineTerminator c) := by
  unfold jsListMatch at h
  cases hd : l.dropWhile isJsWhitespace with
  | nil => rw [hd] at h; simp at h
  | cons c rest =>
    rw [hd] at h
    by_cases hb : isBulletChar c = true
    · simp only [hb, if_true] at h
      by_cases hs : (rest.takeWhile isJsWhitespace).isEmpty = true
      · simp [hs] at h
      · simp only [Bool.not_eq_true] at hs
        simp only [hs, Bool.false_eq_true, if_false, Option.some.injEq,
          Prod.mk.injEq] at h
        obtain ⟨h1, h2, h3, h4⟩ := h
        exact ⟨h1.symm, h2 ▸ hb, rest, by rw [← h2], h3.symm, h3 ▸ hs, h4.symm⟩
    · simp [hb] at h

lemma jsListMatch_none_of_head {l : List Char} {c : Char} {t : List Char}
    (hd : l.dropWhile isJsWhitespace = c :: t) (hc : isBulletChar c = false) :
    jsListMatch l = none := by
  unfold jsListMatch
  rw [hd]
  simp [hc]

lemma dropWhile_append_of_forall {p : Char → Bool} {l₁ : List Char} (l₂ : List Char)
    (h : ∀ c ∈ l₁, p c = true) : (l₁ ++ l₂).dropWhile p = l₂.dropWhile p := by
  induction l₁ with
  | nil => rfl
  | cons c t ih =>
    have hc := h c (List.mem_cons_self c t)
    simp only [List.cons_append, List.dropWhile_cons, hc, if_true]
    exact ih fun x hx => h x (List.mem_cons_of_mem _ hx)

lemma goodGlyph_customBullet {st : CustomBulletsSettings}
    (hg : goodSettings st = true) (n : Nat) :
    goodGlyph (customBullet st n) = true := by
  have h5 : goodGlyph st.level1 = true ∧ goodGlyph st.level2 = true ∧
      goodGlyph st.level3 = true ∧ goodGlyph st.level4 = true ∧
      goodGlyph st.level5 = true := by
    simpa [goodSettings, Bool.and_eq_true, and_assoc] using hg
  rcases customBullet_mem st n with h | h | h | h | h <;> rw [h]
  · exact h5.1
  · exact h5.2.1
  · exact h5.2.2.1
  · exact h5.2.2.2.1
  · exact h5.2.2.2.2

/-- With well-behaved glyphs, the output of a successful rewrite no longer
matches the list-marker regex. -/
lemma jsListMatch_processLine {s : String} {st : CustomBulletsSettings}
    {ind : List Char} {b : Char} {sep cont : List Char}
    (hg : goodSettings st = true) (he : st.enabled = true)
    (h : jsListMatch s.data = some (ind, b, sep, cont)) :
    jsListMatch (processLine s st).data = none := by
  obtain ⟨hind, hb, rest, hdrop, hsep, hsepne, hcont⟩ := jsListMatch_eq_some h
  have hgl : goodGlyph (customBullet st (computeLevel ind)) = true :=
    goodGlyph_customBullet hg _
  cases hgd : (customBullet st (computeLevel ind)).data with
  | nil =>
    unfold goodGlyph at hgl
    rw [hgd] at hgl
    simp at hgl
  | cons c t =>
    have hc : isJsWhitespace c = false ∧ isBulletChar c = false := by
      unfold goodGlyph at hgl
      rw [hgd] at hgl
      simp only [Bool.and_eq_true, Bool.not_eq_true'] at hgl
      exact hgl
    have hdata : (processLine s st).data = ind ++ (c :: (t ++ (sep ++ cont))) := by
      rw [processLine_matched he h]
      simp [String.data_append, hgd, List.append_assoc]
    have hall : ∀ x ∈ ind, isJsWhitespace x = true := by
      intro x hx
      exact List.mem_takeWhile_imp (hind ▸ hx)
    have hdw : (processLine s st).data.dropWhile isJsWhitespace
        = c :: (t ++ (sep ++ cont)) := by
      rw [hdata, dropWhile_append_of_forall _ hall, List.dropWhile_cons, hc.1]
      simp
    exact jsListMatch_none_of_head hdw hc.2

/-- C1: for every line recognized as a bullet list item, the nesting level
computed from the captured indentation is
1 + (number of tabs) + (number of non-tab characters) / 2, and in
particular the six example lines of the claim get levels 1, 2, 3, 2, 3, 2. -/
theorem spec_c1 :
    (∀ (s : String) (ind : List Char) (b : Char) (sep cont : List Char),
      jsListMatch s.data = some (ind, b, sep, cont) →
      computeLevel ind =
        1 + (ind.filter (fun c => c == '\x09')).length
          + (ind.filter (fun c => c != '\x09')).length / 2) ∧
    lineLevel "- a" = some 1 ∧ lineLevel "  - a" = some 2 ∧
    lineLevel "    - a" = some 3 ∧ lineLevel "\t- a" = some 2 ∧
    lineLevel "\t\t- a" = some 3 ∧ lineLevel "   - a" = some 2 := by
  refine ⟨fun s ind b sep cont _ => computeLevel_eq ind, ?_, ?_, ?_, ?_, ?_, ?_⟩ <;> decide

theorem spec_c1_witness :
    computeLevel [' ', ' '] =
      1 + (([' ', ' '] : List Char).filter (fun c => c == '\x09')).length
        + (([' ', ' '] : List Char).filter (fun c => c != '\x09')).length / 2 :=
  spec_c1.1 "  - a" [' ', ' '] '-' [' '] ['a'] (by decide)

/-- C2 (amended): a line is recognized and rewritten if and only if it
consists of an optional leading run of whitespace characters in the
ECMAScript `\s` class (space and tab, but also NBSP, vertical tab, form
feed, and the other Unicode whitespace characters), followed by exactly one
of `-`, `*`, `+`, followed by at least one whitespace character, followed by
arbitrary remaining content. -/
theorem spec_c2 (s : String) :
    (jsListMatch s.data).isSome = true ↔ matchesJsPattern s.data = true := by
  unfold jsListMatch matchesJsPattern
  cases hd : s.data.dropWhile isJsWhitespace with
  | nil => simp
  | cons b rest =>
    cases rest with
    | nil =>
      by_cases hb : isBulletChar b = true <;> simp [hb, List.takeWhile]
    | cons c r =>
      by_cases hb : isBulletChar b = true
      · by_cases hc : isJsWhitespace c = true <;>
          simp [hb, hc, List.takeWhile_cons]
      · simp [hb]

/-- C2 counterexample: the line NBSP + "- a" is recognized and rewritten by
the code, yet its indentation run is not made of space/tab characters, so
the claimed space-tab-only characterization fails. -/
theorem spec_c2_counterexample :
    (jsListMatch (" - a").data).isSome = true ∧
    spaceTabOnlyPattern (" - a").data = false ∧
    processLine " - a" DEFAULT_SETTINGS ≠ " - a" := by
  exact ⟨by decide, by decide, by decide⟩

/-- C3: the glyph substituted for a matched line is selected from the table
by the computed level: 1 ↦ level1, 2 ↦ level2, 3 ↦ level3, 4 ↦ level4, and
any other value (5 and beyond, and the unreachable 0) ↦ level5. -/
theorem spec_c3 (st : CustomBulletsSettings) :
    customBullet st 1 = st.level1 ∧ customBullet st 2 = st.level2 ∧
    customBullet st 3 = st.level3 ∧ customBullet st 4 = st.level4 ∧
    (∀ n : Nat, 5 ≤ n → customBullet st n = st.level5) ∧
    customBullet st 0 = st.level5 ∧
    (∀ (s : String) (ind : List Char) (b : Char) (sep cont : List Char),
      st.enabled = true → jsListMatch s.data = some (ind, b, sep, cont) →
      processLine s st =
        String.mk ind ++ customBullet st (computeLevel ind)
          ++ String.mk sep ++ String.mk cont) :=
  ⟨rfl, rfl, rfl, rfl, fun _ h => customBullet_of_ge5 st h, rfl,
   fun _ _ _ _ _ he hm => processLine_matched he hm⟩

theorem spec_c3_witness :
    customBullet DEFAULT_SETTINGS 7 = DEFAULT_SETTINGS.level5 ∧
    processLine "- a" DEFAULT_SETTINGS =
      String.mk [] ++ customBullet DEFAULT_SETTINGS (computeLevel [])
        ++ String.mk [' '] ++ String.mk ['a'] :=
  ⟨(spec_c3 DEFAULT_SETTINGS).2.2.2.2.1 7 (by decide),
   (spec_c3 DEFAULT_SETTINGS).2.2.2.2.2.2 "- a" [] '-' [' '] ['a'] rfl (by decide)⟩

/-- C4: for a matched line, the output is the original indentation prefix,
the selected glyph, the captured whitespace separator and the captured
content, concatenated in that order — only the bullet marker character of
the line is replaced; in particular the task-list example of the claim. -/
theorem spec_c4 :
    (∀ (s : String) (st : CustomBulletsSettings) (ind : List Char) (b : Char)
        (sep cont : List Char),
      st.enabled = true → jsListMatch s.data = some (ind, b, sep, cont) →
      s.data = ind ++ b :: (sep ++ cont) →
      processLine s st =
        String.mk ind ++ customBullet st (computeLevel ind)
          ++ String.mk sep ++ String.mk cont) ∧
    processLine "  - task [ ]" DEFAULT_SETTINGS = "  ◦ task [ ]" :=
  ⟨fun _ _ _ _ _ _ he hm _ => processLine_matched he hm, by decide⟩

theorem spec_c4_witness :
    processLine "- x" DEFAULT_SETTINGS =
      String.mk [] ++ customBullet DEFAULT_SETTINGS (computeLevel [])
        ++ String.mk [' '] ++ String.mk ['x'] :=
  spec_c4.1 "- x" DEFAULT_SETTINGS [] '-' [' '] ['x'] rfl (by decide) (by decide)

/-- C5: every line the regex does not match — including the empty string,
numbered lists, plain text, and a horizontal rule whose marker is not
followed by whitespace — passes through unchanged, for every settings
record with the feature enabled. -/
theorem spec_c5 :
    (∀ (s : String) (st : CustomBulletsSettings),
      jsListMatch s.data = none → processLine s st = s) ∧
    (∀ st : CustomBulletsSettings,
      processLine "" st = "" ∧ processLine "---" st = "---" ∧
      processLine "1. item" st = "1. item" ∧
      processLine "plain text" st = "plain text") :=
  ⟨fun _ _ h => processLine_not_matched h,
   fun _ => ⟨processLine_not_matched (by decide), processLine_not_matched (by decide),
     processLine_not_matched (by decide), processLine_not_matched (by decide)⟩⟩

theorem spec_c5_witness : processLine "hello" DEFAULT_SETTINGS = "hello" :=
  spec_c5.1 "hello" DEFAULT_SETTINGS (by decide)

/-- C6: with the feature disabled, every line passes through unchanged,
whatever the glyph table. -/
theorem spec_c6 (s : String) (st : CustomBulletsSettings)
    (h : st.enabled = false) : processLine s st = s :=
  processLine_disabled h

theorem spec_c6_witness :
    processLine "- a" ⟨"•", "◦", "▪", "▫", "⁃", false⟩ = "- a" :=
  spec_c6 "- a" ⟨"•", "◦", "▪", "▫", "⁃", false⟩ rfl

/-- C7 (amended): rewriting is idempotent for every glyph table whose five
glyph strings are non-empty and begin with a character that is neither
whitespace nor one of `-`, `*`, `+` — the output of a rewrite then no
longer matches the detection pattern, so a second application is a no-op.
(The claim fails for arbitrary glyph tables: see the counterexample.) -/
theorem spec_c7 (s : String) (st : CustomBulletsSettings)
    (hg : goodSettings st = true) :
    processLine (processLine s st) st = processLine s st := by
  cases he : st.enabled with
  | false => rw [processLine_disabled he, processLine_disabled he]
  | true =>
    cases hm : jsListMatch s.data with
    | none => simp [processLine_not_matched hm]
    | some m =>
      obtain ⟨ind, b, sep, cont⟩ := m
      exact processLine_not_matched (jsListMatch_processLine hg he hm)

theorem spec_c7_witness :
    goodSettings DEFAULT_SETTINGS = true ∧
    processLine (processLine "- a" DEFAULT_SETTINGS) DEFAULT_SETTINGS
      = processLine "- a" DEFAULT_SETTINGS :=
  ⟨by decide, spec_c7 "- a" DEFAULT_SETTINGS (by decide)⟩

/-- C7 counterexample: with the level-1 glyph `"* *"`, rewriting `"- a"`
gives `"* * a"`, which matches the pattern again and is rewritten to
`"* * * a"` — applying the rewrite twice differs from applying it once. -/
theorem spec_c7_counterexample :
    processLine (processLine "- a" starSettings) starSettings
      ≠ processLine "- a" starSettings := by decide

/-- C8: a glyph value submitted through a settings field is replaced by that
level's default before being stored if and only if it is the empty string;
every non-empty value is stored as supplied. -/
theorem spec_c8 (st : CustomBulletsSettings) (v : String) :
    ((v = "" → (level1OnChange st v).level1 = "•") ∧
      (v ≠ "" → (level1OnChange st v).level1 = v)) ∧
    ((v = "" → (level2OnChange st v).level2 = "◦") ∧
      (v ≠ "" → (level2OnChange st v).level2 = v)) ∧
    ((v = "" → (level3OnChange st v).level3 = "▪") ∧
      (v ≠ "" → (level3OnChange st v).level3 = v)) ∧
    ((v = "" → (level4OnChange st v).level4 = "▫") ∧
      (v ≠ "" → (level4OnChange st v).level4 = v)) ∧
    ((v = "" → (level5OnChange st v).level5 = "⁃") ∧
      (v ≠ "" → (level5OnChange st v).level5 = v)) := by
  refine ⟨⟨?_, ?_⟩, ⟨?_, ?_⟩, ⟨?_, ?_⟩, ⟨?_, ?_⟩, ⟨?_, ?_⟩⟩ <;> intro h <;>
    simp [level1OnChange, level2OnChange, level3OnChange, level4OnChange,
      level5OnChange, h]

theorem spec_c8_witness :
    (level1OnChange DEFAULT_SETTINGS "").level1 = "•" ∧
    (level2OnChange DEFAULT_SETTINGS "x").level2 = "x" :=
  ⟨(spec_c8 DEFAULT_SETTINGS "").1.1 rfl,
   (spec_c8 DEFAULT_SETTINGS "x").2.1.2 (by decide)⟩

/-- C9: the rewrite is total — for every line, settings record and enabled
flag it yields a defined output, which is the input itself when the feature
is disabled or the line is unmatched, and the reconstructed line otherwise;
no other outcome exists. -/
theorem spec_c9 (s : String) (st : CustomBulletsSettings) :
    (jsListMatch s.data = none → processLine s st = s) ∧
    (st.enabled = false → processLine s st = s) ∧
    (processLine s st = s ∨
      ∃ ind b sep cont, jsListMatch s.data = some (ind, b, sep, cont) ∧
        processLine s st =
          String.mk ind ++ customBullet st (computeLevel ind)
            ++ String.mk sep ++ String.mk cont) := by
  refine ⟨fun h => processLine_not_matched h, fun h => processLine_disabled h, ?_⟩
  cases he : st.enabled with
  | false => exact Or.inl (processLine_disabled he)
  | true =>
    cases hm : jsListMatch s.data with
    | none => exact Or.inl (processLine_not_matched hm)
    | some m =>
      obtain ⟨ind, b, sep, cont⟩ := m
      exact Or.inr ⟨ind, b, sep, cont, rfl, processLine_matched he hm⟩

theorem spec_c9_witness : processLine "xyz" DEFAULT_SETTINGS = "xyz" :=
  (spec_c9 "xyz" DEFAULT_SETTINGS).1 (by decide)

/-- C10: the computed level of a matched line is at least 1, so the
catch-all branch of the glyph switch is taken exactly when the level is 5
or greater; no value below 1 reaches the default branch. -/
theorem spec_c10 (s : String) (st : CustomBulletsSettings) (ind : List Char)
    (b : Char) (sep cont : List Char)
    (h : jsListMatch s.data = some (ind, b, sep, cont)) :
    1 ≤ computeLevel ind ∧
    (¬(computeLevel ind = 1 ∨ computeLevel ind = 2 ∨
        computeLevel ind = 3 ∨ computeLevel ind = 4) ↔ 5 ≤ computeLevel ind) ∧
    (5 ≤ computeLevel ind → customBullet st (computeLevel ind) = st.level5) := by
  have h1 := computeLevel_pos ind
  exact ⟨h1, by omega, fun h5 => customBullet_of_ge5 st h5⟩

theorem spec_c10_witness :
    1 ≤ computeLevel [' ', ' ', ' ', ' ', ' ', ' ', ' ', ' '] ∧
    (¬(computeLevel [' ', ' ', ' ', ' ', ' ', ' ', ' ', ' '] = 1 ∨
        computeLevel [' ', ' ', ' ', ' ', ' ', ' ', ' ', ' '] = 2 ∨
        computeLevel [' ', ' ', ' ', ' ', ' ', ' ', ' ', ' '] = 3 ∨
        computeLevel [' ', ' ', ' ', ' ', ' ', ' ', ' ', ' '] = 4) ↔
      5 ≤ computeLevel [' ', ' ', ' ', ' ', ' ', ' ', ' ', ' ']) ∧
    (5 ≤ computeLevel [' ', ' ', ' ', ' ', ' ', ' ', ' ', ' '] →
      customBullet DEFAULT_SETTINGS
          (computeLevel [' ', ' ', ' ', ' ', ' ', ' ', ' ', ' '])
        = DEFAULT_SETTINGS.level5) :=
  spec_c10 "        - a" DEFAULT_SETTINGS
    [' ', ' ', ' ', ' ', ' ', ' ', ' ', ' '] '-' [' '] ['a'] (by decide)

end AdvancedBullets
